import Mathlib

/-!
# Verification of the pocketcrud form pipeline (`src/utils/form-utils.js`)

A shallow embedding of the schema-to-form mapping and data coercion
pipeline: `getFormFieldConfig`, `getFormFields`, `validateFormData`,
`prepareFormData`, `formatDateForInput`, `formatDateForDisplay`.

JavaScript values are modelled by the inductive `Value`; numbers are
modelled exactly as rationals (`ℚ`), with `Option ℚ` standing for
"number or NaN" where a coercion can fail.  Host-environment services
(the RegExp engine, `URL` parsing, `JSON.parse`, `Date` parsing) are
passed in as explicit function parameters, following the source's use
of environment globals.
-/

set_option autoImplicit false

namespace PocketCrud

/-- A JavaScript runtime value, restricted to the shapes the form
pipeline manipulates.  `vNum` holds a finite number; NaN only arises
from coercions and is represented by `Option.none` at use sites. -/
inductive Value where
  | vUndefined : Value
  | vNull : Value
  | vBool : Bool → Value
  | vNum : ℚ → Value
  | vStr : String → Value
  | vArr : List Value → Value
  deriving Repr

mutual
/-- Structural (deep) equality test on values. -/
def beqValue : Value → Value → Bool
  | Value.vUndefined, Value.vUndefined => true
  | Value.vNull, Value.vNull => true
  | Value.vBool a, Value.vBool b => a == b
  | Value.vNum a, Value.vNum b => a == b
  | Value.vStr a, Value.vStr b => a == b
  | Value.vArr a, Value.vArr b => beqValueList a b
  | _, _ => false

/-- Elementwise equality test on value lists. -/
def beqValueList : List Value → List Value → Bool
  | [], [] => true
  | a :: as, b :: bs => beqValue a b && beqValueList as bs
  | _, _ => false
end

mutual
theorem beqValue_iff : ∀ (a b : Value), beqValue a b = true ↔ a = b
  | Value.vUndefined, b => by cases b <;> simp [beqValue]
  | Value.vNull, b => by cases b <;> simp [beqValue]
  | Value.vBool x, b => by cases b <;> simp [beqValue]
  | Value.vNum x, b => by cases b <;> simp [beqValue]
  | Value.vStr x, b => by cases b <;> simp [beqValue]
  | Value.vArr xs, b => by
    cases b <;> simp [beqValue]
    case vArr ys => exact beqValueList_iff xs ys

theorem beqValueList_iff : ∀ (as bs : List Value), beqValueList as bs = true ↔ as = bs
  | [], bs => by cases bs <;> simp [beqValueList]
  | _ :: _, [] => by simp [beqValueList]
  | a :: as, b :: bs => by
    simp [beqValueList, Bool.and_eq_true, beqValue_iff a b, beqValueList_iff as bs]
end

instance : DecidableEq Value := fun a b =>
  decidable_of_iff (beqValue a b = true) (beqValue_iff a b)

/-- A JavaScript object with string keys, as an association list in
insertion order (keys unique in well-formed inputs). -/
def RecordData : Type := List (String × Value)

instance : DecidableEq RecordData :=
  inferInstanceAs (DecidableEq (List (String × Value)))

/-- Property read `data[name]`: the value at the first matching key,
`undefined` when the key is absent. -/
def getVal (data : RecordData) (name : String) : Value :=
  match data.find? (fun kv => kv.1 = name) with
  | some kv => kv.2
  | none => Value.vUndefined

/-- Property write `obj[name] = v`: overwrite in place when the key
exists, else append (JS objects keep first-insertion key order). -/
def setKey (data : RecordData) (name : String) (v : Value) : RecordData :=
  match data with
  | [] => [(name, v)]
  | (k, w) :: rest =>
    if k = name then (name, v) :: rest else (k, w) :: setKey rest name v

/-- JS truthiness (`Boolean(v)`): `undefined`, `null`, `false`, `0`
and the empty string are falsy; arrays are always truthy. -/
def jsTruthy : Value → Bool
  | Value.vUndefined => false
  | Value.vNull => false
  | Value.vBool b => b
  | Value.vNum q => q != 0
  | Value.vStr s => s != ""
  | Value.vArr _ => true

/-- Digits to a natural number, most significant first. -/
def digitsToNat (cs : List Char) : Nat :=
  cs.foldl (fun n c => n * 10 + (c.toNat - Char.toNat '0')) 0

/-- Unsigned decimal numeral: digits with an optional fractional part
(at least one digit overall, as in JS `Number("5.")`, `Number(".5")`). -/
def parseUnsigned (cs : List Char) : Option ℚ :=
  let intPart := cs.takeWhile (fun c => c.isDigit)
  let rest := cs.dropWhile (fun c => c.isDigit)
  match rest with
  | [] => if intPart.isEmpty then none else some (digitsToNat intPart : ℚ)
  | '.' :: frac =>
    if frac.all (fun c => c.isDigit) && !(intPart.isEmpty && frac.isEmpty) then
      some ((digitsToNat intPart : ℚ) + (digitsToNat frac : ℚ) / (10 ^ frac.length))
    else none
  | _ => none

/-- Strip leading and trailing whitespace from a character list (the
trimming `Number(s)` performs before parsing). -/
def trimChars (cs : List Char) : List Char :=
  ((cs.dropWhile Char.isWhitespace).reverse.dropWhile Char.isWhitespace).reverse

/-- JS string-to-number coercion (`Number(s)`), modelled on plain
decimal numerals: surrounding whitespace is trimmed, the empty string
is `0`, an optional sign precedes the numeral; anything else is NaN
(`none`).  Hex/exponent/Infinity forms are outside the pipeline's
input domain and are not modelled. -/
def jsParseNumber (s : String) : Option ℚ :=
  match trimChars s.data with
  | [] => some 0
  | '-' :: rest => (parseUnsigned rest).map (fun q => -q)
  | '+' :: rest => parseUnsigned rest
  | cs => parseUnsigned cs

/-- JS `Number(v)` coercion; `none` is NaN.  `Number(null) = 0`,
`Number(true) = 1`, `Number(undefined)` is NaN, strings parse as
decimal numerals, the empty array coerces (via `""`) to `0`, other
arrays are modelled as NaN. -/
def toNumber : Value → Option ℚ
  | Value.vUndefined => none
  | Value.vNull => some 0
  | Value.vBool b => some (if b then 1 else 0)
  | Value.vNum q => some q
  | Value.vStr s => jsParseNumber s
  | Value.vArr [] => some 0
  | Value.vArr (_ :: _) => none

/-- JS number-to-string (`String(q)` / template interpolation) for the
integral numbers the pipeline's claims exercise; a non-integral
rational is rendered as `num/den` (the host's shortest-decimal
rendering is not needed by any claim). -/
def numToStr (q : ℚ) : String :=
  if q.den = 1 then toString q.num
  else toString q.num ++ "/" ++ toString q.den

mutual
/-- JS `String(v)` coercion. -/
def jsToString : Value → String
  | Value.vUndefined => "undefined"
  | Value.vNull => "null"
  | Value.vBool b => if b then "true" else "false"
  | Value.vNum q => numToStr q
  | Value.vStr s => s
  | Value.vArr xs => String.intercalate "," (jsToStringList xs)

/-- `Array.prototype.toString` joins elements with `","`, rendering
`null`/`undefined` elements as the empty string. -/
def jsToStringList : List Value → List String
  | [] => []
  | Value.vUndefined :: vs => "" :: jsToStringList vs
  | Value.vNull :: vs => "" :: jsToStringList vs
  | v :: vs => jsToString v :: jsToStringList vs
end

/-! ## Schema data model (`CollectionField`, `FormFieldConfig`) -/

/-- Type-specific constraints of a schema field (`CollectionField.options`
in `src/utils/index.ts`).  Every key is optional; an absent `options`
object on the field behaves like an options object with no keys, which
is how the source reads it (`field.options?.key`), so the two are
merged here. -/
structure FieldOptions where
  min : Option ℚ := none
  max : Option ℚ := none
  pattern : Option String := none
  values : Option (List String) := none
  maxSelect : Option ℚ := none
  deriving Repr, DecidableEq

/-- One schema field descriptor (`CollectionField`). -/
structure CollectionField where
  id : String := ""
  name : String
  type : String
  system : Bool := false
  required : Bool := false
  presentable : Bool := false
  options : FieldOptions := {}
  deriving Repr, DecidableEq

/-- A derived form-field configuration (`FormFieldConfig`).  Keys that
the source leaves unset are `none`. -/
structure FormFieldConfig where
  name : String
  label : String
  type : String
  required : Bool
  placeholder : Option String := none
  value : Option String := none
  options : Option (List String) := none
  accept : Option String := none
  min : Option ℚ := none
  max : Option ℚ := none
  pattern : Option String := none
  multiple : Option Bool := none
  rows : Option ℚ := none
  deriving Repr, DecidableEq

/-- A caller-supplied `Partial<FormFieldConfig>`: each present key
overrides the derived config's key (`Object.assign`). -/
structure OverridePatch where
  name : Option String := none
  label : Option String := none
  type : Option String := none
  required : Option Bool := none
  placeholder : Option String := none
  value : Option String := none
  options : Option (List String) := none
  accept : Option String := none
  min : Option ℚ := none
  max : Option ℚ := none
  pattern : Option String := none
  multiple : Option Bool := none
  rows : Option ℚ := none
  deriving Repr, DecidableEq

/-- `FieldOverrides`: a map from field name to a partial config. -/
def FieldOverrides : Type := List (String × OverridePatch)

/-- `overrides[name]` lookup. -/
def findOverride (overrides : FieldOverrides) (name : String) : Option OverridePatch :=
  match overrides.find? (fun kv => kv.1 = name) with
  | some kv => some kv.2
  | none => none

/-- `Object.assign(baseConfig, patch)`: every key present on the patch
replaces the base config's key. -/
def applyOverride (cfg : FormFieldConfig) (p : OverridePatch) : FormFieldConfig :=
  { name := p.name.getD cfg.name
    label := p.label.getD cfg.label
    type := p.type.getD cfg.type
    required := p.required.getD cfg.required
    placeholder := p.placeholder.orElse (fun _ => cfg.placeholder)
    value := p.value.orElse (fun _ => cfg.value)
    options := p.options.orElse (fun _ => cfg.options)
    accept := p.accept.orElse (fun _ => cfg.accept)
    min := p.min.orElse (fun _ => cfg.min)
    max := p.max.orElse (fun _ => cfg.max)
    pattern := p.pattern.orElse (fun _ => cfg.pattern)
    multiple := p.multiple.orElse (fun _ => cfg.multiple)
    rows := p.rows.orElse (fun _ => cfg.rows) }

/-- `field.options?.maxSelect && field.options.maxSelect > 1`: the
multi-value test used for `select`/`relation`/`file` (a present,
truthy `maxSelect` that is greater than 1). -/
def maxSelectGt1 (o : FieldOptions) : Bool :=
  match o.maxSelect with
  | some m => (m != 0) && (decide (1 < m))
  | none => false

/-- `field.name.charAt(0).toUpperCase() + field.name.slice(1)`. -/
def capitalize (s : String) : String :=
  match s.data with
  | [] => ""
  | c :: rest => String.mk (c.toUpper :: rest)

/-! ## `getFormFieldConfig` -/

/-- `getFormFieldConfig(field, overrides)` from
`src/utils/form-utils.js` lines 31-125: `none` models the `null`
return for non-`id` system fields; otherwise the base config is
specialized by the descriptor's `type` switch, the `id` field is
forced read-only, and a caller override patch is assigned last. -/
def getFormFieldConfig (field : CollectionField) (overrides : FieldOverrides) :
    Option FormFieldConfig :=
  if field.system && field.name != "id" then
    none
  else
    let baseConfig : FormFieldConfig :=
      { name := field.name
        label := capitalize field.name
        type := "text"
        required := field.required
        placeholder := some ("Enter " ++ field.name)
        value := some "" }
    let cfg :=
      match field.type with
      | "email" => { baseConfig with type := "email", placeholder := some "Enter email address" }
      | "url" => { baseConfig with type := "url", placeholder := some "Enter URL" }
      | "number" =>
        { baseConfig with
            type := "number", placeholder := some "Enter number"
            min := field.options.min, max := field.options.max }
      | "date" => { baseConfig with type := "date" }
      | "bool" => { baseConfig with type := "checkbox", value := some "false" }
      | "select" =>
        { baseConfig with
            type := "select"
            options := some (field.options.values.getD [])
            multiple := some (maxSelectGt1 field.options) }
      | "relation" =>
        { baseConfig with
            type := "select"
            options := some []
            multiple := some (maxSelectGt1 field.options) }
      | "file" =>
        { baseConfig with
            type := "file"
            multiple := if maxSelectGt1 field.options then some true else baseConfig.multiple }
      | "json" =>
        { baseConfig with
            type := "textarea", rows := some 4, placeholder := some "Enter JSON data" }
      | "editor" => { baseConfig with type := "textarea", rows := some 8 }
      | _ =>
        -- the 'text' / default case: `if (field.options?.pattern)` is a
        -- truthiness test, so an empty-string pattern is not copied
        { baseConfig with
            pattern :=
              match field.options.pattern with
              | some p => if p = "" then none else some p
              | none => none
            min := field.options.min, max := field.options.max }
    let cfg :=
      if field.name = "id" then
        { cfg with label := "ID", placeholder := some "Auto-generated", required := false }
      else cfg
    some
      (match findOverride overrides field.name with
       | some p => applyOverride cfg p
       | none => cfg)

/-- `getFormFields(schema, overrides)` lines 132-136: derive every
descriptor and drop the `null` results. -/
def getFormFields (schema : List CollectionField) (overrides : FieldOverrides) :
    List FormFieldConfig :=
  (schema.map (fun field => getFormFieldConfig field overrides)).filterMap id

/-! ## `validateFormData` -/

/-- Host-environment services used by the validator, passed in
explicitly: the RegExp engine applied to the fixed email pattern
(`/^[^\s@]+@[^\s@]+\.[^\s@]+$/.test`), `new URL(s)` success, and
`new RegExp(pattern).test(s)` for caller-supplied text patterns. -/
structure JsEnv where
  emailTest : String → Bool
  urlValid : String → Bool
  regexTest : String → String → Bool

/-- The checks of the `validateFormData` loop body (lines 147-187) for
one field, in push order: required, email, url, number (with min/max),
text pattern. -/
def validateField (env : JsEnv) (data : RecordData) (field : CollectionField) :
    List String :=
  let value := getVal data field.name
  (if field.required && (!(jsTruthy value) || value == Value.vStr "") then
     [field.name ++ " is required"]
   else []) ++
  (if field.type = "email" && jsTruthy value then
     if !(env.emailTest (jsToString value)) then
       [field.name ++ " must be a valid email address"]
     else []
   else []) ++
  (if field.type = "url" && jsTruthy value then
     if !(env.urlValid (jsToString value)) then
       [field.name ++ " must be a valid URL"]
     else []
   else []) ++
  (if field.type = "number" && !(value == Value.vUndefined) && !(value == Value.vStr "") then
     match toNumber value with
     | none => [field.name ++ " must be a valid number"]
     | some num =>
       (match field.options.min with
        | some mn => if num < mn then [field.name ++ " must be at least " ++ numToStr mn] else []
        | none => []) ++
       (match field.options.max with
        | some mx => if mx < num then [field.name ++ " must be at most " ++ numToStr mx] else []
        | none => [])
   else []) ++
  (if field.type = "text" && jsTruthy value then
     match field.options.pattern with
     | some p =>
       -- `field.options?.pattern` truthiness: the empty pattern is skipped
       if p = "" then []
       else if !(env.regexTest p (jsToString value)) then
         [field.name ++ " format is invalid"]
       else []
     | none => []
   else [])

/-- `validateFormData(data, schema)` lines 143-190: the violation
messages pushed by each field's checks, in schema order. -/
def validateFormData (env : JsEnv) (data : RecordData) (schema : List CollectionField) :
    List String :=
  (schema.map (validateField env data)).flatten

/-! ## Date formatters -/

/-- The calendar components of a successfully parsed, valid `Date`
(the pipeline only observes the date part; `month`/`day` are in their
printed 1-based form). -/
structure JsDate where
  year : Int
  month : Nat
  day : Nat
  deriving Repr, DecidableEq

/-- Two-digit zero padding as used inside an ISO date. -/
def pad2 (n : Nat) : String :=
  if n < 10 then "0" ++ toString n else toString n

/-- `date.toISOString().split('T')[0]`: the `YYYY-MM-DD` part of the
ISO rendering of a valid date. -/
def isoDatePart (d : JsDate) : String :=
  toString d.year ++ "-" ++ pad2 d.month ++ "-" ++ pad2 d.day

/-- `date.toLocaleDateString('en-US')`: `M/D/YYYY` with no padding. -/
def localeDatePart (d : JsDate) : String :=
  toString d.month ++ "/" ++ toString d.day ++ "/" ++ toString d.year

/-- `formatDateForInput(isoDateString)` lines 196-208, parameterized
by the host `Date` parser; `parseDate s = none` models
`isNaN(new Date(s).getTime())`. -/
def formatDateForInput (parseDate : String → Option JsDate) (isoDateString : String) :
    String :=
  if isoDateString = "" then ""
  else
    match parseDate isoDateString with
    | none => ""
    | some date => isoDatePart date

/-- `formatDateForDisplay(isoDateString)` lines 214-226. -/
def formatDateForDisplay (parseDate : String → Option JsDate) (isoDateString : String) :
    String :=
  if isoDateString = "" then ""
  else
    match parseDate isoDateString with
    | none => ""
    | some date => localeDatePart date

/-! ## `prepareFormData` -/

/-- The per-type switch body of `prepareFormData` (lines 244-292) for a
value that survived the `undefined`/`null` skip; `none` models the
number cases that leave the field out of the prepared payload.
`jsonParse` is the host `JSON.parse`, with `none` for a parse error
(the `catch` branch keeps the raw value). -/
def coerceValue (jsonParse : String → Option Value) (field : CollectionField)
    (value : Value) : Option Value :=
  match field.type with
  | "number" =>
    if value = Value.vStr "" ∨ value = Value.vNull ∨ value = Value.vUndefined then
      -- empty number fields are excluded from the payload entirely
      none
    else
      match toNumber value with
      | none => none
      | some numValue => some (Value.vNum numValue)
  | "bool" => some (Value.vBool (jsTruthy value))
  | "json" =>
    some
      (match value with
       | Value.vStr s =>
         match jsonParse s with
         | some parsed => parsed
         | none => Value.vStr s
       | v => v)
  | "select" =>
    some
      (if maxSelectGt1 field.options then
         match value with
         | Value.vArr xs => Value.vArr xs
         | v => Value.vArr [v]
       else
         match value with
         | Value.vArr xs => xs.getD 0 Value.vUndefined
         | v => v)
  | "relation" =>
    some
      (if maxSelectGt1 field.options then
         match value with
         | Value.vArr xs => Value.vArr xs
         | v => Value.vArr [v]
       else
         match value with
         | Value.vArr xs => xs.getD 0 Value.vUndefined
         | v => v)
  | "file" => some value
  | _ => some value

/-- One iteration of the `prepareFormData` loop: read the raw value,
skip `undefined`/`null`, otherwise coerce and assign. -/
def prepareStep (jsonParse : String → Option Value) (data : RecordData)
    (prepared : RecordData) (field : CollectionField) : RecordData :=
  match getVal data field.name with
  | Value.vUndefined => prepared
  | Value.vNull => prepared
  | value =>
    match coerceValue jsonParse field value with
    | some v => setKey prepared field.name v
    | none => prepared

/-- `prepareFormData(data, schema)` lines 233-296. -/
def prepareFormData (jsonParse : String → Option Value) (data : RecordData)
    (schema : List CollectionField) : RecordData :=
  schema.foldl (prepareStep jsonParse data) []

/-- A value already in the canonical output form of `prepareFormData`
for its field's type (`number`/`bool`/`select` only): a typed number,
a boolean, an array for a multi-select, a non-array non-null scalar
for a single select; `undefined` (the field simply absent) is also
canonical. -/
def canonicalValue (field : CollectionField) (v : Value) : Bool :=
  (v == Value.vUndefined) ||
    match field.type with
    | "number" => (match v with | Value.vNum _ => true | _ => false)
    | "bool" => (match v with | Value.vBool _ => true | _ => false)
    | "select" =>
      if maxSelectGt1 field.options then
        match v with | Value.vArr _ => true | _ => false
      else
        match v with
        | Value.vArr _ => false
        | Value.vNull => false
        | _ => true
    | _ => false

/-! ## Helper lemmas -/

/-- A fixed environment used to instantiate host-service parameters in
concrete evaluations. -/
def trivialEnv : JsEnv := ⟨fun _ => false, fun _ => false, fun _ _ => false⟩

/-- A `JSON.parse` stand-in that always fails. -/
def noJson : String → Option Value := fun _ => none

theorem string_append_cancel_left {n s t : String} (h : n ++ s = n ++ t) : s = t := by
  have hd : (n ++ s).data = (n ++ t).data := by rw [h]
  simp at hd
  exact String.ext hd

/-! ## C2: `getFormFieldConfig` nullity -/

/-- C2: `getFormFieldConfig f overrides` is `null` exactly when `f` is
a system field other than `id`; every other descriptor yields a
(non-null) config. -/
theorem getFormFieldConfig_none_iff (field : CollectionField) (overrides : FieldOverrides) :
    getFormFieldConfig field overrides = none ↔
      (field.system = true ∧ field.name ≠ "id") := by
  rw [getFormFieldConfig]
  split_ifs with h
  · simp only [Bool.and_eq_true, bne_iff_ne, ne_eq] at h
    simp [h]
  · simp only [Bool.and_eq_true, bne_iff_ne, ne_eq, not_and] at h
    constructor
    · intro hc
      exact absurd hc (by simp)
    · intro hc
      exact absurd hc.2 (h hc.1)

/-! ## C6: `getFormFields` is an order-preserving non-null filter -/

theorem length_filterMap_eq_count {α β : Type} (f : α → Option β) (l : List α) :
    (l.filterMap f).length = (l.filter (fun a => (f a).isSome)).length := by
  induction l with
  | nil => simp
  | cons a l ih =>
    cases h : f a <;> simp [List.filterMap_cons, List.filter_cons, h, ih]

/-- C6: `getFormFields` maps each descriptor through
`getFormFieldConfig` in schema order, dropping the `null` results: it
equals the order-preserving `filterMap`, its length is the number of
descriptors with a non-null derivation, and is at most the input
length. -/
theorem getFormFields_spec (schema : List CollectionField) (overrides : FieldOverrides) :
    getFormFields schema overrides =
        schema.filterMap (fun field => getFormFieldConfig field overrides) ∧
      (getFormFields schema overrides).length =
        (schema.filter (fun field => (getFormFieldConfig field overrides).isSome)).length ∧
      (getFormFields schema overrides).length ≤ schema.length := by
  have heq : getFormFields schema overrides =
      schema.filterMap (fun field => getFormFieldConfig field overrides) := by
    rw [getFormFields, List.filterMap_map]
    rfl
  refine ⟨heq, ?_, ?_⟩
  · rw [heq, length_filterMap_eq_count]
  · rw [heq]
    exact List.length_filterMap_le _ _

/-! ## C7: the `id` descriptor is forced read-only -/

/-- C7: for a descriptor named `id` with no caller override for `id`,
the derived config exists and has label `ID`, placeholder
`Auto-generated` and `required = false`, whatever the descriptor's
`system` and `required` flags. -/
theorem getFormFieldConfig_id (field : CollectionField) (overrides : FieldOverrides)
    (hname : field.name = "id") (hov : findOverride overrides "id" = none) :
    ∃ cfg, getFormFieldConfig field overrides = some cfg ∧
      cfg.label = "ID" ∧ cfg.placeholder = some "Auto-generated" ∧
      cfg.required = false := by
  rw [getFormFieldConfig, hname]
  simp only [bne_self_eq_false, Bool.and_false, Bool.false_eq_true, if_false, hov,
    if_true, reduceIte]
  split <;> exact ⟨_, rfl, rfl, rfl, rfl⟩

/-! ## C9: date formatters are total, with empty-string fallback -/

/-- C9: for every host date parser and every input string, each
formatter returns `""` exactly when the input is empty or unparsable,
and a non-empty formatted string otherwise; an invalid date is never
propagated. -/
theorem formatDate_empty_iff (parseDate : String → Option JsDate) (s : String) :
    (formatDateForInput parseDate s = "" ↔ (s = "" ∨ parseDate s = none)) ∧
      (formatDateForDisplay parseDate s = "" ↔ (s = "" ∨ parseDate s = none)) := by
  have hiso : ∀ d : JsDate, isoDatePart d ≠ "" := by
    intro d h
    have := congrArg String.length h
    simp [isoDatePart] at this
    exact absurd this.1.1.1.2 (by decide)
  have hloc : ∀ d : JsDate, localeDatePart d ≠ "" := by
    intro d h
    have := congrArg String.length h
    simp [localeDatePart] at this
    exact absurd this.1.1.1.2 (by decide)
  constructor
  · rw [formatDateForInput]
    split_ifs with h
    · simp [h]
    · cases hp : parseDate s <;> simp [h, hp, hiso]
  · rw [formatDateForDisplay]
    split_ifs with h
    · simp [h]
    · cases hp : parseDate s <;> simp [h, hp, hloc]

/-- C7 witness: the `id` descriptor of the test schema (system,
required) derives a config labelled `ID`, placeholder
`Auto-generated`, not required. -/
theorem getFormFieldConfig_id_witness :
    ({ name := "id", type := "text", system := true, required := true } :
        CollectionField).name = "id" ∧
      findOverride [] "id" = none ∧
      ∃ cfg,
        getFormFieldConfig
            { name := "id", type := "text", system := true, required := true } [] =
          some cfg ∧
        cfg.label = "ID" ∧ cfg.placeholder = some "Auto-generated" ∧
        cfg.required = false :=
  ⟨rfl, rfl,
    getFormFieldConfig_id
      { name := "id", type := "text", system := true, required := true } [] rfl rfl⟩

/-! ## C3: select/relation multi-value wrapping -/

/-- C3: for a `select`- or `relation`-typed field whose raw value is
neither `undefined` nor `null`, the prepared payload holds an array
when `options.maxSelect > 1` (wrapping a scalar into a one-element
array), and otherwise a scalar (unwrapping an array to its first
element). -/
theorem prepare_select_relation (jsonParse : String → Option Value)
    (field : CollectionField) (data : RecordData)
    (htype : field.type = "select" ∨ field.type = "relation")
    (hu : getVal data field.name ≠ Value.vUndefined)
    (hn : getVal data field.name ≠ Value.vNull) :
    prepareFormData jsonParse data [field] =
      [(field.name,
        if maxSelectGt1 field.options then
          match getVal data field.name with
          | Value.vArr xs => Value.vArr xs
          | v => Value.vArr [v]
        else
          match getVal data field.name with
          | Value.vArr xs => xs.getD 0 Value.vUndefined
          | v => v)] := by
  rw [prepareFormData, List.foldl, List.foldl, prepareStep]
  cases hval : getVal data field.name <;> rw [hval] at hu hn
  case vUndefined => exact absurd rfl hu
  case vNull => exact absurd rfl hn
  all_goals rcases htype with h | h <;> simp [coerceValue, h, setKey]

/-- C3 witness (Scenario C): schema
`[{name:'tags', type:'select', options:{maxSelect:3}}]` with data
`{tags:'red'}` prepares to `{tags:['red']}`. -/
theorem prepare_select_relation_witness :
    getVal [("tags", Value.vStr "red")] "tags" ≠ Value.vUndefined ∧
      prepareFormData noJson [("tags", Value.vStr "red")]
          [{ name := "tags", type := "select", options := { maxSelect := some 3 } }] =
        [("tags", Value.vArr [Value.vStr "red"])] := by
  refine ⟨by decide, ?_⟩
  have h := prepare_select_relation noJson
    { name := "tags", type := "select", options := { maxSelect := some 3 } }
    [("tags", Value.vStr "red")] (Or.inl rfl) (by decide) (by decide)
  simpa using h

/-! ## C4: number coercion omits empty and non-numeric values -/

/-- C4: for a `number`-typed field the prepared payload omits the
field when the raw value is absent, `null`, the empty string, or does
not coerce to a number, and otherwise holds the coerced number — the
field's `required` flag plays no part. -/
theorem prepare_number (jsonParse : String → Option Value)
    (field : CollectionField) (data : RecordData)
    (htype : field.type = "number") :
    prepareFormData jsonParse data [field] =
      (if getVal data field.name = Value.vStr "" ∨ getVal data field.name = Value.vNull ∨
            getVal data field.name = Value.vUndefined then
        []
      else
        match toNumber (getVal data field.name) with
        | none => []
        | some q => [(field.name, Value.vNum q)]) := by
  rw [prepareFormData, List.foldl, List.foldl, prepareStep]
  by_cases h : getVal data field.name = Value.vStr "" ∨ getVal data field.name = Value.vNull ∨
      getVal data field.name = Value.vUndefined
  · rw [if_pos h]
    rcases h with h | h | h <;> rw [h] <;> simp [coerceValue, htype]
  · rw [if_neg h]
    push_neg at h
    obtain ⟨hs, hn, hu⟩ := h
    rcases h2 : toNumber (getVal data field.name) with _ | q <;>
      cases hval : getVal data field.name <;> rw [hval] at hs hn hu h2 <;>
      first
        | exact absurd rfl hu
        | exact absurd rfl hn
        | (simp only [coerceValue, htype]
           rw [if_neg (by simp [hs, hn, hu]), h2]
           try simp [setKey])

/-- C4 witness (Scenario F): a required `number` field with raw value
`''` is omitted — the prepared payload is `{}`. -/
theorem prepare_number_witness :
    ({ name := "requiredAge", type := "number", required := true } :
        CollectionField).type = "number" ∧
      prepareFormData noJson [("requiredAge", Value.vStr "")]
          [{ name := "requiredAge", type := "number", required := true }] = [] := by
  refine ⟨rfl, ?_⟩
  have h := prepare_number noJson
    { name := "requiredAge", type := "number", required := true }
    [("requiredAge", Value.vStr "")] rfl
  simpa using h

/-! ## C5: json values parse gracefully -/

/-- C5: for a `json`-typed field, a string value is replaced by its
parse result when the host parse succeeds and kept verbatim when it
fails (the `catch` branch); a non-string value passes through
unchanged.  The function is total: malformed JSON never escapes as an
error. -/
theorem prepare_json (jsonParse : String → Option Value)
    (field : CollectionField) (data : RecordData)
    (htype : field.type = "json") :
    prepareFormData jsonParse data [field] =
      match getVal data field.name with
      | Value.vUndefined => []
      | Value.vNull => []
      | Value.vStr s =>
        [(field.name,
          match jsonParse s with
          | some parsed => parsed
          | none => Value.vStr s)]
      | v => [(field.name, v)] := by
  rw [prepareFormData, List.foldl, List.foldl, prepareStep]
  cases hval : getVal data field.name <;> simp [coerceValue, htype, setKey]

/-- C5 witness (Scenario D): with a failing host parse, the malformed
string `{bad json` is preserved unchanged. -/
theorem prepare_json_witness :
    ({ name := "metadata", type := "json" } : CollectionField).type = "json" ∧
      prepareFormData noJson [("metadata", Value.vStr "\x7bbad json")]
          [{ name := "metadata", type := "json" }] =
        [("metadata", Value.vStr "\x7bbad json")] := by
  refine ⟨rfl, ?_⟩
  have h := prepare_json noJson { name := "metadata", type := "json" }
    [("metadata", Value.vStr "\x7bbad json")] rfl
  simpa [noJson] using h

/-! ## C1: the required check is a generic falsy test -/

theorem truthy_ne_emptystr {v : Value} (h : jsTruthy v = true) :
    (v == Value.vStr "") = false := by
  cases v <;> simp_all [jsTruthy]

theorem req_ne_email (n : String) :
    n ++ " is required" ≠ n ++ " must be a valid email address" := fun h =>
  absurd (string_append_cancel_left h) (by decide)

theorem req_ne_url (n : String) :
    n ++ " is required" ≠ n ++ " must be a valid URL" := fun h =>
  absurd (string_append_cancel_left h) (by decide)

theorem req_ne_number (n : String) :
    n ++ " is required" ≠ n ++ " must be a valid number" := fun h =>
  absurd (string_append_cancel_left h) (by decide)

theorem req_ne_format (n : String) :
    n ++ " is required" ≠ n ++ " format is invalid" := fun h =>
  absurd (string_append_cancel_left h) (by decide)

theorem req_ne_atLeast (n : String) (q : ℚ) :
    n ++ " is required" ≠ n ++ " must be at least " ++ numToStr q := by
  intro h
  rw [String.append_assoc] at h
  have h2 := string_append_cancel_left h
  have h3 := congrArg String.length h2
  simp only [String.length_append] at h3
  have e1 : (" is required").length = 12 := rfl
  have e2 : (" must be at least ").length = 18 := rfl
  omega

theorem req_ne_atMost (n : String) (q : ℚ) :
    n ++ " is required" ≠ n ++ " must be at most " ++ numToStr q := by
  intro h
  rw [String.append_assoc] at h
  have h2 := string_append_cancel_left h
  have h3 := congrArg String.length h2
  simp only [String.length_append] at h3
  have e1 : (" is required").length = 12 := rfl
  have e2 : (" must be at most ").length = 17 := rfl
  omega

/-- C1 counterexample: for the required `number` field `age` with
present value `0`, `validateFormData` does emit `"age is required"` —
the source's `!data[field.name]` is a generic falsy test, so `0` (and
`false`) are treated as missing, contrary to the claim. -/
theorem required_zero_counterexample :
    validateFormData trivialEnv [("age", Value.vNum 0)]
        [{ name := "age", type := "number", required := true }] =
      ["age is required"] := by decide

/-- C1 amended: for a field with `required = true`, the message
`"<name> is required"` is emitted exactly when the record's value is
JS-falsy — `undefined`, `null`, the empty string, *and also* the
number `0` and the boolean `false`. -/
theorem required_message_iff (env : JsEnv) (field : CollectionField) (data : RecordData)
    (hreq : field.required = true) :
    (field.name ++ " is required") ∈ validateFormData env data [field] ↔
      jsTruthy (getVal data field.name) = false := by
  have hflat : validateFormData env data [field] = validateField env data field := by
    simp [validateFormData]
  rw [hflat, validateField]
  constructor
  · intro hmem
    by_contra hne
    have ht : jsTruthy (getVal data field.name) = true := by
      revert hne; cases jsTruthy (getVal data field.name) <;> simp
    revert hmem
    rw [hreq, ht, truthy_ne_emptystr ht]
    have k1 := req_ne_email field.name
    have k2 := req_ne_url field.name
    have k3 := req_ne_number field.name
    have k4 := req_ne_atLeast field.name
    have k5 := req_ne_atMost field.name
    have k6 := req_ne_format field.name
    rcases htn : toNumber (getVal data field.name) with _ | q <;>
      rcases hmin : field.options.min with _ | mn <;>
      rcases hmax : field.options.max with _ | mx <;>
      rcases hpat : field.options.pattern with _ | p <;>
      simp_all [List.mem_append]
  · intro hf
    rw [hreq, hf]
    simp [List.mem_append]

/-- C1 witness for the amended claim: the boolean `false` on a
required `bool` field is reported missing. -/
theorem required_message_iff_witness :
    ({ name := "flag", type := "bool", required := true } : CollectionField).required
        = true ∧
      ("flag" ++ " is required") ∈
        validateFormData trivialEnv [("flag", Value.vBool false)]
          [{ name := "flag", type := "bool", required := true }] :=
  ⟨rfl,
    (required_message_iff trivialEnv
          { name := "flag", type := "bool", required := true }
          [("flag", Value.vBool false)] rfl).mpr
      (by decide)⟩

/-! ## C10: a `null` number value is range-checked as 0 -/

/-- C10: the number check skips only `undefined` and `''`; a `null`
value coerces to `0`, so a non-required `number` field with a positive
`options.min` reports `"<name> must be at least <min>"` on `null`,
and reports nothing when `min ≤ 0 ≤ max`. -/
theorem validate_null_number (env : JsEnv) (name : String) (mn mx : ℚ)
    (data : RecordData) (hnull : getVal data name = Value.vNull) :
    (0 < mn →
        (name ++ " must be at least " ++ numToStr mn) ∈
          validateFormData env data
            [{ name := name, type := "number", required := false,
               options := { min := some mn, max := some mx } }]) ∧
      (mn ≤ 0 → 0 ≤ mx →
        validateFormData env data
          [{ name := name, type := "number", required := false,
             options := { min := some mn, max := some mx } }] = []) := by
  have hflat : ∀ f : CollectionField,
      validateFormData env data [f] = validateField env data f := by
    intro f; simp [validateFormData]
  constructor
  · intro hmn
    rw [hflat, validateField]
    simp [hnull, toNumber, List.mem_append, hmn]
  · intro hmn hmx
    rw [hflat, validateField]
    simp [hnull, toNumber, not_lt.mpr hmn, not_lt.mpr hmx]

/-- C10 witness: field `age` (`number`, not required, `min = 5`,
`max = 120`) with value `null` yields the minimum-bound violation. -/
theorem validate_null_number_witness :
    getVal [("age", Value.vNull)] "age" = Value.vNull ∧
      (0 : ℚ) < 5 ∧
      ("age" ++ " must be at least " ++ numToStr 5) ∈
        validateFormData trivialEnv [("age", Value.vNull)]
          [{ name := "age", type := "number", required := false,
             options := { min := some 5, max := some 120 } }] :=
  ⟨rfl, by norm_num,
    (validate_null_number trivialEnv "age" 5 120 [("age", Value.vNull)] rfl).1
      (by norm_num)⟩

/-! ## C8: idempotence on canonical data -/

theorem getVal_setKey (m : RecordData) (k k' : String) (v : Value) :
    getVal (setKey m k v) k' = if k' = k then v else getVal m k' := by
  induction m with
  | nil =>
    rcases eq_or_ne k' k with h | h
    · subst h; simp [setKey, getVal, List.find?]
    · simp [setKey, getVal, List.find?, h, Ne.symm h]
  | cons kv rest ih =>
    obtain ⟨k0, w⟩ := kv
    rw [setKey]
    by_cases h0 : k0 = k
    · rw [if_pos h0, h0]
      rcases eq_or_ne k' k with h | h
      · subst h
        simp [getVal, List.find?]
      · simp [getVal, List.find?, h, Ne.symm h]
    · rw [if_neg h0]
      rcases eq_or_ne k' k0 with h | h
      · subst h
        simp [getVal, List.find?, h0]
      · have hd : (decide (k0 = k')) = false := by
          simp only [decide_eq_false_iff_not]
          exact Ne.symm h
        simp only [getVal, List.find?] at ih ⊢
        rw [hd]
        exact ih

theorem canonicalValue_null (f : CollectionField) :
    canonicalValue f Value.vNull = false := by
  rw [canonicalValue.eq_def]
  rw [show (Value.vNull == Value.vUndefined) = false from rfl, Bool.false_or]
  split <;> first | rfl | (split_ifs <;> rfl)

/-- On a canonical (non-`undefined`) value, the per-type coercion of
`prepareFormData` is the identity. -/
theorem coerce_canonical (jsonParse : String → Option Value) (f : CollectionField)
    (v : Value) (hc : canonicalValue f v = true) (hu : v ≠ Value.vUndefined) :
    coerceValue jsonParse f v = some v := by
  cases v
  case vUndefined => exact absurd rfl hu
  all_goals
    rw [canonicalValue.eq_def] at hc
    simp only [Bool.or_eq_true, beq_iff_eq, reduceCtorEq, false_or] at hc
    split at hc <;>
      first
        | simp
        | simp_all [coerceValue, toNumber, jsTruthy]

/-- Bridge: one `prepareFormData` iteration, with the skip condition
expressed propositionally. -/
theorem prepareStep_eq (jsonParse : String → Option Value) (data : RecordData)
    (acc : RecordData) (field : CollectionField) :
    prepareStep jsonParse data acc field =
      if getVal data field.name = Value.vUndefined ∨
          getVal data field.name = Value.vNull then acc
      else
        match coerceValue jsonParse field (getVal data field.name) with
        | some v => setKey acc field.name v
        | none => acc := by
  rw [prepareStep]
  by_cases h : getVal data field.name = Value.vUndefined ∨
      getVal data field.name = Value.vNull
  · rw [if_pos h]
    rcases h with h | h <;> rw [h]
  · rw [if_neg h]
    push_neg at h
    obtain ⟨hu, hn⟩ := h
    cases hval : getVal data field.name <;> rw [hval] at hu hn
    all_goals first
      | exact absurd rfl hu
      | exact absurd rfl hn
      | rfl

/-- On canonical data, every key a schema field writes during the fold
receives exactly its original value; other keys keep the
accumulator's value. -/
theorem prepare_foldl_getVal (jsonParse : String → Option Value) (data : RecordData)
    (schema : List CollectionField)
    (H : ∀ f ∈ schema, canonicalValue f (getVal data f.name) = true) :
    ∀ (acc : RecordData) (k : String),
      getVal (schema.foldl (prepareStep jsonParse data) acc) k =
        if (schema.any fun f =>
              f.name == k && !(getVal data k == Value.vUndefined)) = true then
          getVal data k
        else getVal acc k := by
  induction schema with
  | nil => intro acc k; simp
  | cons f rest ih =>
    intro acc k
    have Hf := H f (List.mem_cons_self f rest)
    have Hrest : ∀ g ∈ rest, canonicalValue g (getVal data g.name) = true :=
      fun g hg => H g (List.mem_cons_of_mem f hg)
    rw [List.foldl_cons, ih Hrest, prepareStep_eq, List.any_cons]
    by_cases hskip : getVal data f.name = Value.vUndefined ∨
        getVal data f.name = Value.vNull
    · have hund : getVal data f.name = Value.vUndefined := by
        rcases hskip with h | h
        · exact h
        · rw [h, canonicalValue_null] at Hf
          exact absurd Hf (by simp)
      rw [if_pos hskip]
      by_cases hk : f.name = k
      · subst hk
        have hterm : (f.name == f.name && !(getVal data f.name == Value.vUndefined))
            = false := by simp [hund]
        rw [hterm, Bool.false_or]
      · have hterm : (f.name == k && !(getVal data k == Value.vUndefined)) = false := by
          simp [hk]
        rw [hterm, Bool.false_or]
    · rw [if_neg hskip]
      push_neg at hskip
      obtain ⟨hu, hn⟩ := hskip
      have hstep : (match coerceValue jsonParse f (getVal data f.name) with
          | some v => setKey acc f.name v
          | none => acc) = setKey acc f.name (getVal data f.name) := by
        rw [coerce_canonical jsonParse f (getVal data f.name) Hf hu]
      rw [hstep]
      by_cases hk : f.name = k
      · subst hk
        have hterm : (f.name == f.name && !(getVal data f.name == Value.vUndefined))
            = true := by simp [hu]
        rw [hterm, Bool.true_or, if_pos rfl]
        split_ifs with hany
        · rfl
        · rw [getVal_setKey, if_pos rfl]
      · have hterm : (f.name == k && !(getVal data k == Value.vUndefined)) = false := by
          simp [hk]
        rw [hterm, Bool.false_or]
        split_ifs with hany
        · rfl
        · rw [getVal_setKey, if_neg (fun e => hk e.symm)]

/-- `prepareFormData` only reads the input record at schema field
names. -/
theorem prepare_congr (jsonParse : String → Option Value) (d1 d2 : RecordData)
    (schema : List CollectionField)
    (H : ∀ f ∈ schema, getVal d1 f.name = getVal d2 f.name) :
    ∀ acc : RecordData,
      schema.foldl (prepareStep jsonParse d1) acc =
        schema.foldl (prepareStep jsonParse d2) acc := by
  induction schema with
  | nil => intro acc; rfl
  | cons f rest ih =>
    intro acc
    have hstep : prepareStep jsonParse d1 acc f = prepareStep jsonParse d2 acc f := by
      rw [prepareStep_eq, prepareStep_eq, H f (List.mem_cons_self f rest)]
    rw [List.foldl_cons, List.foldl_cons, hstep,
      ih (fun g hg => H g (List.mem_cons_of_mem f hg))]

/-- C8: `prepareFormData` is idempotent on canonically-typed data:
over a schema of `number`/`bool`/`select` fields whose raw values are
already in the canonical output form of their type, re-preparing the
prepared payload changes nothing. -/
theorem prepare_idempotent (jsonParse : String → Option Value) (data : RecordData)
    (schema : List CollectionField)
    (H : ∀ f ∈ schema,
      (f.type = "number" ∨ f.type = "bool" ∨ f.type = "select") ∧
        canonicalValue f (getVal data f.name) = true) :
    prepareFormData jsonParse (prepareFormData jsonParse data schema) schema =
      prepareFormData jsonParse data schema := by
  have Hc : ∀ f ∈ schema, canonicalValue f (getVal data f.name) = true :=
    fun f hf => (H f hf).2
  have H2 : ∀ f ∈ schema,
      getVal (prepareFormData jsonParse data schema) f.name = getVal data f.name := by
    intro f hf
    rw [prepareFormData, prepare_foldl_getVal jsonParse data schema Hc]
    split_ifs with hany
    · rfl
    · by_cases hund : getVal data f.name = Value.vUndefined
      · rw [hund]; rfl
      · exact absurd
          (List.any_eq_true.mpr ⟨f, hf, by simp [hund]⟩) hany
  exact prepare_congr jsonParse (prepareFormData jsonParse data schema) data schema H2 []

/-- C8 witness: a four-field `number`/`bool`/`select` schema with
canonically-typed data is a fixed point of re-preparation. -/
theorem prepare_idempotent_witness :
    (∀ f ∈ ([{ name := "age", type := "number" },
             { name := "active", type := "bool" },
             { name := "tags", type := "select",
               options := { maxSelect := some 3 } },
             { name := "category", type := "select",
               options := { maxSelect := some 1 } }] : List CollectionField),
        (f.type = "number" ∨ f.type = "bool" ∨ f.type = "select") ∧
          canonicalValue f
              (getVal [("age", Value.vNum 25), ("active", Value.vBool true),
                ("tags", Value.vArr [Value.vStr "red", Value.vStr "blue"]),
                ("category", Value.vStr "tech")] f.name) = true) ∧
      prepareFormData noJson
          (prepareFormData noJson
            [("age", Value.vNum 25), ("active", Value.vBool true),
              ("tags", Value.vArr [Value.vStr "red", Value.vStr "blue"]),
              ("category", Value.vStr "tech")]
            [{ name := "age", type := "number" },
              { name := "active", type := "bool" },
              { name := "tags", type := "select", options := { maxSelect := some 3 } },
              { name := "category", type := "select",
                options := { maxSelect := some 1 } }])
          [{ name := "age", type := "number" },
            { name := "active", type := "bool" },
            { name := "tags", type := "select", options := { maxSelect := some 3 } },
            { name := "category", type := "select",
              options := { maxSelect := some 1 } }] =
        prepareFormData noJson
          [("age", Value.vNum 25), ("active", Value.vBool true),
            ("tags", Value.vArr [Value.vStr "red", Value.vStr "blue"]),
            ("category", Value.vStr "tech")]
          [{ name := "age", type := "number" },
            { name := "active", type := "bool" },
            { name := "tags", type := "select", options := { maxSelect := some 3 } },
            { name := "category", type := "select",
              options := { maxSelect := some 1 } }] :=
  ⟨by decide,
    prepare_idempotent noJson
      [("age", Value.vNum 25), ("active", Value.vBool true),
        ("tags", Value.vArr [Value.vStr "red", Value.vStr "blue"]),
        ("category", Value.vStr "tech")]
      [{ name := "age", type := "number" },
        { name := "active", type := "bool" },
        { name := "tags", type := "select", options := { maxSelect := some 3 } },
        { name := "category", type := "select", options := { maxSelect := some 1 } }]
      (by decide)⟩

end PocketCrud
